import Mathlib

/-!
Verification of the `webcamfilter` repository (src/src/app/WebcamCircles.tsx).

The component renders webcam frames as a halftone grid of white disks and
records the canvas to a downloadable video.  We embed the three algorithmic
parts shallowly:

* `processImageData` — the per-frame halftone transform (nested `for` loops
  over grid points, brightness → radius mapping, canvas draw calls).
* `captureAndProcess` — one render tick: readiness gating, canvas resizing,
  drawing the video frame and running `processImageData`.
* the recording subsystem — `handleStartRecording` / `handleStopRecording` /
  the `ondataavailable` and `onstop` callbacks, modelled as a state machine
  over the component's React state, with the stale-closure capture of
  `recordedChunks` made explicit.
* `toggleCamera` — the facing-mode switch.

JavaScript numbers are modelled over `ℚ` (exact arithmetic); pixel byte
arrays (`Uint8ClampedArray`) are modelled as index → byte functions; the
`for (x = 0; x < limit; x += spacing)` loops are modelled with a fuel
argument (`fuel = limit` suffices whenever `spacing ≥ 1`, which is the
documented precondition on the render parameters).
-/

namespace WebcamFilter

/-- A video frame: `ImageData` with `width`, `height` and the RGBA byte
array `data` (index → byte value, 4 bytes per pixel). -/
structure Frame where
  width : Nat
  height : Nat
  data : Nat → Nat

/-- One 2-D canvas draw call issued by `processImageData`. -/
inductive DrawOp where
  | fillRect (color : String) (x y w h : Nat)
  | disk (color : String) (x y : Nat) (r : ℚ)
deriving DecidableEq

/-- `const i = (y * width + x) * 4` — byte index of the pixel at `(x, y)`. -/
def pixelIndex (f : Frame) (x y : Nat) : Nat :=
  (y * f.width + x) * 4

/-- `const brightness = (data[i] + data[i + 1] + data[i + 2]) / 3`. -/
def brightness (f : Frame) (x y : Nat) : ℚ :=
  ((f.data (pixelIndex f x y) + f.data (pixelIndex f x y + 1) +
      f.data (pixelIndex f x y + 2) : Nat) : ℚ) / 3

/-- `const radius = (brightness / 255) * (circleSize / 2)`. -/
def radiusOf (b circleSize : ℚ) : ℚ :=
  (b / 255) * (circleSize / 2)

/-- Radius drawn at grid point `(x, y)` of frame `f`. -/
def radius (f : Frame) (circleSize : ℚ) (x y : Nat) : ℚ :=
  radiusOf (brightness f x y) circleSize

/-- Inner loop `for (let x = 0; x < width; x += spacing)` of
`processImageData`, with a fuel argument; each iteration draws one white
disk.  `fuel = f.width` suffices when `0 < spacing`. -/
def loopX (f : Frame) (circleSize : ℚ) (spacing y : Nat) : Nat → Nat → List DrawOp
  | 0, _ => []
  | fuel + 1, x =>
    if x < f.width then
      DrawOp.disk "white" x y (radius f circleSize x y) ::
        loopX f circleSize spacing y fuel (x + spacing)
    else []

/-- Outer loop `for (let y = 0; y < height; y += spacing)` of
`processImageData`. -/
def loopY (f : Frame) (circleSize : ℚ) (spacing : Nat) : Nat → Nat → List DrawOp
  | 0, _ => []
  | fuel + 1, y =>
    if y < f.height then
      loopX f circleSize spacing y f.width 0 ++
        loopY f circleSize spacing fuel (y + spacing)
    else []

/-- `processImageData` from WebcamCircles.tsx: fill the surface black, then
run the grid loops; the result is the ordered list of draw calls. -/
def processImageData (f : Frame) (circleSize : ℚ) (spacing : Nat) : List DrawOp :=
  DrawOp.fillRect "black" 0 0 f.width f.height ::
    loopY f circleSize spacing f.height 0

/-- The sampled coordinates of one loop `for (v = cur; v < limit; v += spacing)`,
with fuel (`fuel = limit` suffices when `0 < spacing`). -/
def gridSteps (spacing limit : Nat) : Nat → Nat → List Nat
  | 0, _ => []
  | fuel + 1, cur =>
    if cur < limit then cur :: gridSteps spacing limit fuel (cur + spacing)
    else []

/-- Sampled x-coordinates of one renderer pass. -/
def sampleXs (f : Frame) (spacing : Nat) : List Nat :=
  gridSteps spacing f.width f.width 0

/-- Sampled y-coordinates of one renderer pass. -/
def sampleYs (f : Frame) (spacing : Nat) : List Nat :=
  gridSteps spacing f.height f.height 0

/-- All byte indices read from `data` during one renderer pass:
`data[i]`, `data[i+1]`, `data[i+2]` at each sampled grid point. -/
def readIndices (f : Frame) (spacing : Nat) : List Nat :=
  (sampleYs f spacing).flatMap fun y =>
    (sampleXs f spacing).flatMap fun x =>
      [pixelIndex f x y, pixelIndex f x y + 1, pixelIndex f x y + 2]

/-- `true` exactly on the disk draw calls. -/
def isDisk : DrawOp → Bool
  | DrawOp.disk _ _ _ _ => true
  | _ => false

/-- The 640×480 uniform mid-gray frame (every byte 128). -/
def uniform128 : Frame :=
  ⟨640, 480, fun _ => 128⟩

/-- `video.HAVE_ENOUGH_DATA` (readyState threshold). -/
def HAVE_ENOUGH_DATA : Nat := 4

/-- The `<video>` element backing the webcam: its readiness state and the
frame it currently presents (`videoWidth`/`videoHeight` are the frame's
dimensions; `drawImage` + `getImageData` recovers exactly this frame). -/
structure Video where
  readyState : Nat
  frame : Frame

/-- A command applied to the canvas during one tick of `captureAndProcess`. -/
inductive CanvasCmd where
  | setDims (w h : Nat)
  | setSmoothing (b : Bool)
  | drawVideo (w h : Nat)
  | draw (op : DrawOp)
deriving DecidableEq

/-- `captureAndProcess` from WebcamCircles.tsx, as the list of canvas
commands one tick issues.  `webcam` is `webcamRef.current?.video`
(`none` when the webcam ref or its video is null), `canvasAvail` whether
`canvasRef.current` is non-null, `ctxAvail` whether `getContext` returned a
context. -/
def captureAndProcess (webcam : Option Video) (canvasAvail ctxAvail : Bool)
    (circleSize : ℚ) (spacing : Nat) : List CanvasCmd :=
  match webcam, canvasAvail with
  | some video, true =>
    if video.readyState = HAVE_ENOUGH_DATA then
      CanvasCmd.setDims video.frame.width video.frame.height ::
        (if ctxAvail then
          CanvasCmd.setSmoothing false ::
            CanvasCmd.drawVideo video.frame.width video.frame.height ::
              (processImageData video.frame circleSize spacing).map CanvasCmd.draw
        else [])
    else []
  | _, _ => []

/-- The canvas surface: pixel dimensions plus the paint commands applied
since the last resize (assigning `canvas.width`/`canvas.height` clears the
surface). -/
structure Canvas where
  width : Nat
  height : Nat
  content : List CanvasCmd
deriving DecidableEq

/-- Apply one command to the canvas.  `setSmoothing` is context state, not
surface state. -/
def applyCmd (c : Canvas) : CanvasCmd → Canvas
  | CanvasCmd.setDims w h => ⟨w, h, []⟩
  | CanvasCmd.setSmoothing _ => c
  | cmd => { c with content := c.content ++ [cmd] }

/-- Apply a tick's command list to the canvas, in order. -/
def applyCmds (c : Canvas) (cmds : List CanvasCmd) : Canvas :=
  cmds.foldl applyCmd c

/-! ## Recording subsystem

State machine over the component's recording-related React state.  Chunks
and recorders are identified by natural numbers.  React semantics made
explicit: `setRecordedChunks (prev => ...)` always acts on the latest
state, while the `onstop` closure installed by `handleStopRecording`
captures the `recordedChunks` *value* of the render in which the stop
handler was created — chunks appended after the `stop()` call are not in
that captured list. -/

/-- Recording-related component state.

* `recordedChunks` — the `recordedChunks` React state (chunk ids, arrival
  order);
* `recorderRef` — `mediaRecorderRef.current` (id of the recorder, if any);
* `activeRecorders` — ids of every `MediaRecorder` that has been `start`ed
  and not yet `stop`ped (a recorder replaced in the ref without being
  stopped keeps running);
* `nextId` — id the next `new MediaRecorder(...)` will get;
* `downloadUrl` — the `downloadUrl` React state (the assembled blob, as its
  ordered chunk ids);
* `stopSnapshot` — the `recordedChunks` value captured by the currently
  installed `onstop` closure, if one is pending. -/
structure RecorderSys where
  isRecording : Bool
  recordedChunks : List Nat
  recorderRef : Option Nat
  activeRecorders : List Nat
  nextId : Nat
  downloadUrl : Option (List Nat)
  stopSnapshot : Option (List Nat)
deriving DecidableEq

/-- Initial component state: nothing recording, no chunks, no recorder. -/
def initRecorder : RecorderSys :=
  ⟨false, [], none, [], 0, none, none⟩

/-- `handleStartRecording` (success path of the `try` block):
`setDownloadUrl(null)`; then, if the canvas is available, create and start
a new `MediaRecorder`, store it in the ref, `setIsRecording(true)`,
`setRecordedChunks([])`.  There is no guard on `isRecording`: a previously
started recorder is neither stopped nor removed from `activeRecorders`. -/
def handleStartRecording (canvasAvail : Bool) (s : RecorderSys) : RecorderSys :=
  if canvasAvail then
    { isRecording := true
      recordedChunks := []
      recorderRef := some s.nextId
      activeRecorders := s.nextId :: s.activeRecorders
      nextId := s.nextId + 1
      downloadUrl := none
      stopSnapshot := s.stopSnapshot }
  else { s with downloadUrl := none }

/-- `recorder.ondataavailable`: a running recorder delivers a chunk; it is
appended (functional state update) iff `event.data.size > 0`. -/
def chunkArrives (s : RecorderSys) (rid dataId size : Nat) : RecorderSys :=
  if rid ∈ s.activeRecorders ∧ 0 < size then
    { s with recordedChunks := s.recordedChunks ++ [dataId] }
  else s

/-- `handleStopRecording`: only when the ref holds a recorder and
`isRecording` — `stop()` the ref'd recorder, `setIsRecording(false)`, then
install `onstop`, whose closure captures the current `recordedChunks`
value. -/
def handleStopRecording (s : RecorderSys) : RecorderSys :=
  match s.recorderRef with
  | some rid =>
    if s.isRecording then
      { s with
        isRecording := false
        activeRecorders := s.activeRecorders.erase rid
        stopSnapshot := some s.recordedChunks }
    else s
  | none => s

/-- The stopped recorder finalizes: it fires a last `ondataavailable` with
the remaining buffered data (appended iff its size is positive, via the
always-current functional update), then `onstop` runs, building the blob
from the *captured* chunk list and exposing it as `downloadUrl`. -/
def recorderFinalize (s : RecorderSys) (finalId finalSize : Nat) : RecorderSys :=
  let s1 :=
    if 0 < finalSize then { s with recordedChunks := s.recordedChunks ++ [finalId] }
    else s
  match s.stopSnapshot with
  | some snap => { s1 with downloadUrl := some snap, stopSnapshot := none }
  | none => s1

/-! ## Concrete fixtures used to instantiate theorems -/

/-- A 1×1 all-white frame. -/
def oneWhite : Frame :=
  ⟨1, 1, fun _ => 255⟩

/-- A 3×2 all-black frame. -/
def smallFrame : Frame :=
  ⟨3, 2, fun _ => 0⟩

/-- A video that is ready (`readyState = HAVE_ENOUGH_DATA`) presenting the
1×1 white frame. -/
def readyVideo : Video :=
  ⟨4, oneWhite⟩

/-- A video that has not buffered enough data yet. -/
def notReadyVideo : Video :=
  ⟨2, oneWhite⟩

/-- A 640×480 canvas with nothing drawn since its last resize. -/
def blankCanvas : Canvas :=
  ⟨640, 480, []⟩

/-! ## Device switcher -/

/-- The webcam facing mode: `'user'` (front) or `'environment'` (back). -/
inductive FacingMode where
  | user
  | environment
deriving DecidableEq

/-- Facing-mode plus the remount `key` state. -/
structure CameraState where
  facingMode : FacingMode
  key : Nat
deriving DecidableEq

/-- `toggleCamera`: `prev === 'user' ? 'environment' : 'user'`, and bump
`key` to force the webcam component to remount. -/
def toggleCamera (s : CameraState) : CameraState :=
  { facingMode :=
      if s.facingMode = FacingMode.user then FacingMode.environment else FacingMode.user
    key := s.key + 1 }

/-! ## Helper lemmas about the sampling loops -/

theorem gridSteps_mem_lt (spacing limit : Nat) :
    ∀ (fuel cur x : Nat), x ∈ gridSteps spacing limit fuel cur → x < limit := by
  intro fuel
  induction fuel with
  | zero => intro cur x h; simp [gridSteps] at h
  | succ n ih =>
    intro cur x h
    by_cases hc : cur < limit
    · simp only [gridSteps, if_pos hc, List.mem_cons] at h
      rcases h with h | h
      · omega
      · exact ih _ _ h
    · simp [gridSteps, hc] at h

theorem gridSteps_nil (spacing limit fuel cur : Nat) (h : limit ≤ cur) :
    gridSteps spacing limit fuel cur = [] := by
  cases fuel with
  | zero => rfl
  | succ n => simp only [gridSteps, if_neg (by omega : ¬ cur < limit)]

theorem gridSteps_cons (spacing limit fuel cur : Nat) (h : cur < limit) :
    gridSteps spacing limit (fuel + 1) cur =
      cur :: gridSteps spacing limit fuel (cur + spacing) := by
  simp [gridSteps, h]

theorem gridSteps_length (spacing limit : Nat) (hs : 0 < spacing) :
    ∀ (fuel cur : Nat), limit ≤ cur + fuel * spacing →
      (gridSteps spacing limit fuel cur).length =
        (limit - cur + spacing - 1) / spacing := by
  intro fuel
  induction fuel with
  | zero =>
    intro cur h
    simp only [Nat.zero_mul, Nat.add_zero] at h
    rw [gridSteps_nil spacing limit 0 cur h]
    have hd : limit - cur = 0 := by omega
    rw [hd]
    exact (Nat.div_eq_of_lt (by omega)).symm
  | succ n ih =>
    intro cur h
    have hexp : (n + 1) * spacing = n * spacing + spacing := Nat.succ_mul n spacing
    by_cases hc : cur < limit
    · rw [gridSteps_cons spacing limit n cur hc, List.length_cons,
        ih (cur + spacing) (by omega)]
      by_cases hbig : cur + spacing ≤ limit
      · have h1 : limit - (cur + spacing) + spacing - 1 = limit - cur - 1 := by omega
        have h2 : limit - cur + spacing - 1 = (limit - cur - 1) + spacing := by omega
        rw [h1, h2, Nat.add_div_right _ hs]
      · have h1 : limit - (cur + spacing) = 0 := by omega
        have h2 : limit - cur + spacing - 1 < 2 * spacing := by omega
        have h3 : spacing ≤ limit - cur + spacing - 1 := by omega
        rw [h1, Nat.zero_add]
        rw [Nat.div_eq_of_lt (by omega), (by omega : 2 * spacing = spacing * 2) ] at *
        exact (Nat.div_eq_of_lt_le (by omega) (by omega)).symm
    · rw [gridSteps_nil spacing limit (n + 1) cur (by omega)]
      have hd : limit - cur = 0 := by omega
      rw [hd]
      exact (Nat.div_eq_of_lt (by omega)).symm

theorem loopX_eq (f : Frame) (cs : ℚ) (sp y : Nat) :
    ∀ (fuel x : Nat), loopX f cs sp y fuel x =
      (gridSteps sp f.width fuel x).map fun x2 =>
        DrawOp.disk "white" x2 y (radius f cs x2 y) := by
  intro fuel
  induction fuel with
  | zero => intro x; rfl
  | succ n ih =>
    intro x
    by_cases h : x < f.width <;> simp [loopX, gridSteps, h, ih]

theorem loopY_eq (f : Frame) (cs : ℚ) (sp : Nat) :
    ∀ (fuel y : Nat), loopY f cs sp fuel y =
      (gridSteps sp f.height fuel y).flatMap fun y2 => loopX f cs sp y2 f.width 0 := by
  intro fuel
  induction fuel with
  | zero => intro y; rfl
  | succ n ih =>
    intro y
    by_cases h : y < f.height <;> simp [loopY, gridSteps, h, ih]

theorem processImageData_eq (f : Frame) (cs : ℚ) (sp : Nat) :
    processImageData f cs sp =
      DrawOp.fillRect "black" 0 0 f.width f.height ::
        (sampleYs f sp).flatMap fun y =>
          (sampleXs f sp).map fun x => DrawOp.disk "white" x y (radius f cs x y) := by
  unfold processImageData sampleYs sampleXs
  rw [loopY_eq]
  congr 1
  refine List.flatMap_congr ?_
  intro y _
  exact loopX_eq f cs sp y f.width 0

theorem flatMap_map_length {α β γ : Type} (ys : List α) (xs : List β) (g : α → β → γ) :
    (ys.flatMap fun y => xs.map (g y)).length = ys.length * xs.length := by
  induction ys with
  | nil => simp
  | cons a t ih => simp [ih, Nat.succ_mul]; omega

theorem ceil_div_eq (n s : Nat) (hs : 0 < s) :
    ⌈(n : ℚ) / (s : ℚ)⌉₊ = (n + s - 1) / s := by
  have hsq : (0 : ℚ) < (s : ℚ) := by exact_mod_cast hs
  rcases Nat.eq_zero_or_pos n with h0 | hn
  · subst h0
    simp only [Nat.cast_zero, zero_div, Nat.ceil_zero]
    exact (Nat.div_eq_of_lt (by omega)).symm
  · have hk0 : (n + s - 1) / s ≠ 0 := by
      have hle : s ≤ n + s - 1 := by omega
      have := (Nat.one_le_div_iff hs).mpr hle
      omega
    rw [Nat.ceil_eq_iff hk0]
    have hmul : ((n + s - 1) / s) * s ≤ n + s - 1 := Nat.div_mul_le_self _ _
    have hmod : s * ((n + s - 1) / s) + (n + s - 1) % s = n + s - 1 :=
      Nat.div_add_mod _ _
    have hrem : (n + s - 1) % s < s := Nat.mod_lt _ hs
    have hcomm : ((n + s - 1) / s) * s = s * ((n + s - 1) / s) := Nat.mul_comm _ _
    constructor
    · rw [lt_div_iff₀ hsq]
      have hnat : ((n + s - 1) / s - 1) * s < n := by
        have h1 : ((n + s - 1) / s - 1) * s = ((n + s - 1) / s) * s - s :=
          Nat.sub_one_mul _ _
        omega
      exact_mod_cast hnat
    · rw [div_le_iff₀ hsq]
      have hnat : n ≤ ((n + s - 1) / s) * s := by omega
      exact_mod_cast hnat

/-! ## Claim theorems: halftone renderer -/

/-- C1: one renderer pass first fills the whole surface black, then for
every grid point `(x, y)` — `x` stepping by `spacing` from 0 while
`x < width`, `y` stepping by `spacing` from 0 while `y < height` — computes
`brightness = (R + G + B) / 3` of the pixel at `(x, y)` and draws a filled
white disk of radius `(brightness / 255) * (circleSize / 2)` centered at
`(x, y)`; in particular brightness 255 with `circleSize = 30` yields radius
exactly 15. -/
theorem processImageData_halftone (f : Frame) (circleSize : ℚ) (spacing : Nat)
    (hs : 0 < spacing) :
    processImageData f circleSize spacing =
      DrawOp.fillRect "black" 0 0 f.width f.height ::
        ((sampleYs f spacing).flatMap fun y =>
          (sampleXs f spacing).map fun x =>
            DrawOp.disk "white" x y ((brightness f x y / 255) * (circleSize / 2))) ∧
    radiusOf 255 30 = 15 := by
  clear hs
  refine ⟨?_, by norm_num [radiusOf]⟩
  simpa only [radius, radiusOf] using processImageData_eq f circleSize spacing

/-- Witness for C1 at the 1×1 all-white frame, circleSize 30, spacing 1. -/
theorem processImageData_halftone_w :
    processImageData oneWhite 30 1 =
      DrawOp.fillRect "black" 0 0 oneWhite.width oneWhite.height ::
        ((sampleYs oneWhite 1).flatMap fun y =>
          (sampleXs oneWhite 1).map fun x =>
            DrawOp.disk "white" x y ((brightness oneWhite x y / 255) * ((30 : ℚ) / 2))) ∧
    radiusOf 255 30 = 15 :=
  processImageData_halftone oneWhite 30 1 (by decide)

/-- C5: for every frame of width W and height H and every positive spacing
s, the number of grid points sampled (disks drawn) by one renderer pass is
`ceil(W/s) * ceil(H/s)`. -/
theorem sampledGridCount (f : Frame) (circleSize : ℚ) (s : Nat) (hs : 0 < s) :
    (processImageData f circleSize s).countP isDisk =
      ⌈(f.width : ℚ) / (s : ℚ)⌉₊ * ⌈(f.height : ℚ) / (s : ℚ)⌉₊ := by
  rw [processImageData_eq, List.countP_cons]
  have hfill : (if isDisk (DrawOp.fillRect "black" 0 0 f.width f.height) then 1 else 0) = 0 := rfl
  rw [hfill, Nat.add_zero]
  have hall : ∀ op ∈ ((sampleYs f s).flatMap fun y =>
      (sampleXs f s).map fun x => DrawOp.disk "white" x y (radius f circleSize x y)),
      isDisk op = true := by
    intro op hop
    rcases List.mem_flatMap.mp hop with ⟨y, _, hmap⟩
    rcases List.mem_map.mp hmap with ⟨x, _, rfl⟩
    rfl
  rw [List.countP_eq_length.mpr hall, flatMap_map_length]
  unfold sampleYs sampleXs
  rw [gridSteps_length s f.height hs f.height 0
      (by have := Nat.le_mul_of_pos_right f.height hs; omega),
    gridSteps_length s f.width hs f.width 0
      (by have := Nat.le_mul_of_pos_right f.width hs; omega),
    ceil_div_eq f.width s hs, ceil_div_eq f.height s hs]
  simp [Nat.mul_comm]

/-- Witness for C5 at the 3×2 frame with spacing 2. -/
theorem sampledGridCount_w :
    (processImageData smallFrame 0 2).countP isDisk =
      ⌈(smallFrame.width : ℚ) / (2 : ℚ)⌉₊ * ⌈(smallFrame.height : ℚ) / (2 : ℚ)⌉₊ :=
  sampledGridCount smallFrame 0 2 (by decide)

/-- C6: with spacing ≥ the frame's width (respectively height) and that
dimension positive, exactly one column (respectively row) of samples is
drawn, located at x = 0 (respectively y = 0). -/
theorem singleColumnOrRow (f : Frame) (circleSize : ℚ) (s : Nat) :
    (f.width ≤ s → 0 < f.width →
      sampleXs f s = [0] ∧
      ((processImageData f circleSize s).all fun op =>
        match op with
        | DrawOp.disk _ x _ _ => x == 0
        | _ => true) = true) ∧
    (f.height ≤ s → 0 < f.height →
      sampleYs f s = [0] ∧
      ((processImageData f circleSize s).all fun op =>
        match op with
        | DrawOp.disk _ _ y _ => y == 0
        | _ => true) = true) := by
  have hxs : f.width ≤ s → 0 < f.width → sampleXs f s = [0] := by
    intro hws hw
    unfold sampleXs
    obtain ⟨n, hn⟩ : ∃ n, f.width = n + 1 := ⟨f.width - 1, by omega⟩
    rw [hn, gridSteps_cons s (n + 1) n 0 (by omega),
      gridSteps_nil s (n + 1) n (0 + s) (by omega)]
  have hys : f.height ≤ s → 0 < f.height → sampleYs f s = [0] := by
    intro hhs hh
    unfold sampleYs
    obtain ⟨n, hn⟩ : ∃ n, f.height = n + 1 := ⟨f.height - 1, by omega⟩
    rw [hn, gridSteps_cons s (n + 1) n 0 (by omega),
      gridSteps_nil s (n + 1) n (0 + s) (by omega)]
  constructor
  · intro hws hw
    refine ⟨hxs hws hw, List.all_eq_true.mpr ?_⟩
    intro op hop
    rw [processImageData_eq] at hop
    rcases List.mem_cons.mp hop with rfl | hop
    · rfl
    rcases List.mem_flatMap.mp hop with ⟨y, _, hmap⟩
    rcases List.mem_map.mp hmap with ⟨x, hx, rfl⟩
    have : x ∈ sampleXs f s := hx
    rw [hxs hws hw] at this
    simp only [List.mem_singleton] at this
    subst this
    rfl
  · intro hhs hh
    refine ⟨hys hhs hh, List.all_eq_true.mpr ?_⟩
    intro op hop
    rw [processImageData_eq] at hop
    rcases List.mem_cons.mp hop with rfl | hop
    · rfl
    rcases List.mem_flatMap.mp hop with ⟨y, hy, hmap⟩
    rcases List.mem_map.mp hmap with ⟨x, _, rfl⟩
    have : y ∈ sampleYs f s := hy
    rw [hys hhs hh] at this
    simp only [List.mem_singleton] at this
    subst this
    rfl

/-- Witness for C6 at the 3×2 frame with spacing 5 (≥ both dimensions). -/
theorem singleColumnOrRow_w :
    (sampleXs smallFrame 5 = [0] ∧
      ((processImageData smallFrame 0 5).all fun op =>
        match op with
        | DrawOp.disk _ x _ _ => x == 0
        | _ => true) = true) ∧
    (sampleYs smallFrame 5 = [0] ∧
      ((processImageData smallFrame 0 5).all fun op =>
        match op with
        | DrawOp.disk _ _ y _ => y == 0
        | _ => true) = true) :=
  ⟨(singleColumnOrRow smallFrame 0 5).1 (by decide) (by decide),
   (singleColumnOrRow smallFrame 0 5).2 (by decide) (by decide)⟩

/-- C9: for a frame whose pixel-data array has length exactly
`4 * width * height`, every byte index the renderer pass reads (`i`, `i+1`,
`i+2` at each sampled grid point) is strictly within the array's bounds. -/
theorem readsInBounds (f : Frame) (s len : Nat) (hs : 0 < s)
    (hlen : len = 4 * f.width * f.height) :
    ∀ j ∈ readIndices f s, j < len := by
  clear hs
  intro j hj
  subst hlen
  unfold readIndices at hj
  rcases List.mem_flatMap.mp hj with ⟨y, hy, hj2⟩
  rcases List.mem_flatMap.mp hj2 with ⟨x, hx, hj3⟩
  have hxw : x < f.width := gridSteps_mem_lt s f.width f.width 0 x hx
  have hyh : y < f.height := gridSteps_mem_lt s f.height f.height 0 y hy
  have key : y * f.width + x < f.width * f.height := by
    calc y * f.width + x < y * f.width + f.width := by omega
      _ = (y + 1) * f.width := (Nat.succ_mul y f.width).symm
      _ ≤ f.height * f.width := Nat.mul_le_mul_right f.width (by omega)
      _ = f.width * f.height := Nat.mul_comm _ _
  have hassoc : 4 * f.width * f.height = 4 * (f.width * f.height) := Nat.mul_assoc 4 _ _
  simp only [List.mem_cons, List.mem_singleton, List.not_mem_nil, or_false,
    pixelIndex] at hj3
  rcases hj3 with h | h | h <;> omega

/-- Witness for C9: index 9 (pixel (2,0) of the 3×2 frame, channel G) is in
bounds. -/
theorem readsInBounds_w : 9 < 4 * smallFrame.width * smallFrame.height :=
  readsInBounds smallFrame 2 (4 * smallFrame.width * smallFrame.height)
    (by decide) rfl 9 (by decide)

/-! ## Claim C4: the 640×480 uniform mid-gray scenario -/

theorem brightness_uniform128 (x y : Nat) : brightness uniform128 x y = 128 := by
  simp only [brightness, uniform128, pixelIndex]
  norm_num

theorem radius_uniform128 (x y : Nat) : radius uniform128 10 x y = 128 / 51 := by
  rw [radius, brightness_uniform128, radiusOf]
  norm_num

/-- C4 counterexample: on the 640×480 uniform (128,128,128) frame with
spacing 10 and circleSize 10, the first disk drawn (the second draw
command) has radius 128/51 ≈ 2.51 — not within 1 of the claimed ≈ 4.9. -/
theorem uniformGrayRadius_cex :
    (processImageData uniform128 10 10)[1]? =
      some (DrawOp.disk "white" 0 0 (128 / 51)) ∧
    ¬ |(128 : ℚ) / 51 - 49 / 10| ≤ 1 := by
  constructor
  · have h := processImageData_eq uniform128 10 10
    rw [h]
    have hy : sampleYs uniform128 10 = 0 :: gridSteps 10 480 479 10 :=
      gridSteps_cons 10 480 479 0 (by norm_num)
    have hx : sampleXs uniform128 10 = 0 :: gridSteps 10 640 639 10 :=
      gridSteps_cons 10 640 639 0 (by norm_num)
    rw [hy, hx, List.flatMap_cons, List.map_cons]
    simp only [List.getElem?_cons_succ, List.cons_append, List.getElem?_cons_zero,
      radius_uniform128]
  · norm_num [abs_le]

/-- C4 amended: the 640×480 frame with every pixel (128,128,128), spacing
10 and circleSize 10 renders as black fill plus a regular 64-column ×
48-row grid of white disks, each of radius exactly 128/51 ≈ 2.51 px (not
≈ 4.9 px). -/
theorem uniformGrayGrid :
    processImageData uniform128 10 10 =
      DrawOp.fillRect "black" 0 0 640 480 ::
        ((sampleYs uniform128 10).flatMap fun y =>
          (sampleXs uniform128 10).map fun x =>
            DrawOp.disk "white" x y (128 / 51)) ∧
    (sampleXs uniform128 10).length = 64 ∧
    (sampleYs uniform128 10).length = 48 := by
  refine ⟨?_, ?_, ?_⟩
  · rw [processImageData_eq]
    simp only [radius_uniform128]
    rfl
  · show (gridSteps 10 640 640 0).length = 64
    rw [gridSteps_length 10 640 (by norm_num) 640 0 (by norm_num)]
  · show (gridSteps 10 480 480 0).length = 48
    rw [gridSteps_length 10 480 (by norm_num) 480 0 (by norm_num)]

/-! ## Claim C2: recording state machine idempotence -/

/-- C2 counterexample: `start` followed by `start` does **not** leave
exactly one active session and the second call is not a no-op — after two
starts two recorders are started and never stopped, and the state differs
from the state after one start. -/
theorem doubleStart_cex :
    (handleStartRecording true (handleStartRecording true initRecorder)).activeRecorders.length
        = 2 ∧
    (handleStartRecording true initRecorder).activeRecorders.length = 1 ∧
    handleStartRecording true (handleStartRecording true initRecorder) ≠
      handleStartRecording true initRecorder := by
  decide

/-- C2 amended: calling `stop` while Idle — recorder ref empty (no prior
start) or not recording — is a no-op that raises no error and produces no
artifact; but calling `start` while Recording is **not** a no-op: it
creates, starts and stores a fresh recorder, clears the chunk list, and
leaves the previously started recorder active alongside the new one. -/
theorem recorderStateMachine_amended :
    (∀ s : RecorderSys, s.recorderRef = none → handleStopRecording s = s) ∧
    (∀ s : RecorderSys, s.isRecording = false → handleStopRecording s = s) ∧
    (∀ s : RecorderSys, s.isRecording = true →
      (handleStartRecording true s).isRecording = true ∧
      (handleStartRecording true s).recorderRef = some s.nextId ∧
      (handleStartRecording true s).recordedChunks = [] ∧
      (handleStartRecording true s).activeRecorders = s.nextId :: s.activeRecorders) := by
  refine ⟨?_, ?_, ?_⟩
  · intro s h
    simp [handleStopRecording, h]
  · intro s h
    unfold handleStopRecording
    cases href : s.recorderRef with
    | none => rfl
    | some rid => simp [h]
  · intro s h
    simp [handleStartRecording]

/-- Witness for C2 amended: stop on the initial state is a no-op; a second
start stacks a second active recorder on top of the first. -/
theorem recorderStateMachine_amended_w :
    handleStopRecording initRecorder = initRecorder ∧
    (handleStartRecording true (handleStartRecording true initRecorder)).activeRecorders =
      (handleStartRecording true initRecorder).nextId ::
        (handleStartRecording true initRecorder).activeRecorders :=
  ⟨recorderStateMachine_amended.1 initRecorder rfl,
   (recorderStateMachine_amended.2.2 (handleStartRecording true initRecorder)
      (by decide)).2.2.2⟩

/-! ## Claim C3: stop loses the final chunk and does not clear the chunks -/

/-- C3 (code bug): on the session start → chunk 101 arrives → stop →
encoder finalizes delivering final chunk 102: the exposed artifact is
`[101]` — the final chunk is missing, because the installed `onstop`
closure captured `recordedChunks` as of the `stop()` call — and
`recordedChunks = [101, 102]` is not cleared; only `isRecording` did
transition back. -/
theorem stopDropsFinalChunk :
    (recorderFinalize
        (handleStopRecording
          (chunkArrives (handleStartRecording true initRecorder) 0 101 1000))
        102 500).downloadUrl = some [101] ∧
    (recorderFinalize
        (handleStopRecording
          (chunkArrives (handleStartRecording true initRecorder) 0 101 1000))
        102 500).recordedChunks = [101, 102] ∧
    (recorderFinalize
        (handleStopRecording
          (chunkArrives (handleStartRecording true initRecorder) 0 101 1000))
        102 500).isRecording = false := by
  decide

/-! ## Claims C7 and C8: render-tick behaviour -/

/-- C7: in a tick whose video is ready, the very first canvas command sets
the surface's pixel dimensions to the observed frame's dimensions, and no
later command of the tick changes the dimensions — so the dimensions equal
the frame's before any draw of that tick, for frames of any dimensions. -/
theorem canvasSizedBeforeDraws (video : Video) (ctxAvail : Bool)
    (circleSize : ℚ) (spacing : Nat)
    (hready : video.readyState = HAVE_ENOUGH_DATA) :
    ∃ rest,
      captureAndProcess (some video) true ctxAvail circleSize spacing =
        CanvasCmd.setDims video.frame.width video.frame.height :: rest ∧
      ∀ w h, CanvasCmd.setDims w h ∉ rest := by
  have hstep : captureAndProcess (some video) true ctxAvail circleSize spacing =
      if video.readyState = HAVE_ENOUGH_DATA then
        CanvasCmd.setDims video.frame.width video.frame.height ::
          (if ctxAvail then
            CanvasCmd.setSmoothing false ::
              CanvasCmd.drawVideo video.frame.width video.frame.height ::
                (processImageData video.frame circleSize spacing).map CanvasCmd.draw
          else [])
      else [] := rfl
  rw [hstep, if_pos hready]
  refine ⟨_, rfl, ?_⟩
  intro w h hmem
  cases ctxAvail with
  | false => simp at hmem
  | true =>
    simp only [if_pos, List.mem_cons, List.mem_map] at hmem
    rcases hmem with h1 | h1 | h1
    · exact CanvasCmd.noConfusion h1
    · exact CanvasCmd.noConfusion h1
    · rcases h1 with ⟨op, _, h2⟩
      exact CanvasCmd.noConfusion h2

/-- Witness for C7 at the ready video presenting the 1×1 white frame. -/
theorem canvasSizedBeforeDraws_w :
    ∃ rest,
      captureAndProcess (some readyVideo) true true 30 1 =
        CanvasCmd.setDims readyVideo.frame.width readyVideo.frame.height :: rest ∧
      ∀ w h, CanvasCmd.setDims w h ∉ rest :=
  canvasSizedBeforeDraws readyVideo true 30 1 rfl

/-- C8: a tick in which the video's readiness is below the
`HAVE_ENOUGH_DATA` threshold issues no canvas commands at all and leaves
any canvas surface entirely unchanged. -/
theorem notReadyTickIsNoop (video : Video) (canvasAvail ctxAvail : Bool)
    (circleSize : ℚ) (spacing : Nat) (c : Canvas)
    (h : video.readyState < HAVE_ENOUGH_DATA) :
    captureAndProcess (some video) canvasAvail ctxAvail circleSize spacing = [] ∧
    applyCmds c
      (captureAndProcess (some video) canvasAvail ctxAvail circleSize spacing) = c := by
  have hne : ¬ video.readyState = HAVE_ENOUGH_DATA := by omega
  have hnil : captureAndProcess (some video) canvasAvail ctxAvail circleSize spacing = [] := by
    cases canvasAvail with
    | false => rfl
    | true =>
      have hstep : captureAndProcess (some video) true ctxAvail circleSize spacing =
          if video.readyState = HAVE_ENOUGH_DATA then
            CanvasCmd.setDims video.frame.width video.frame.height ::
              (if ctxAvail then
                CanvasCmd.setSmoothing false ::
                  CanvasCmd.drawVideo video.frame.width video.frame.height ::
                    (processImageData video.frame circleSize spacing).map CanvasCmd.draw
              else [])
          else [] := rfl
      rw [hstep, if_neg hne]
  exact ⟨hnil, by rw [hnil]; rfl⟩

/-- Witness for C8 at a not-yet-buffered video and the blank 640×480
canvas. -/
theorem notReadyTickIsNoop_w :
    captureAndProcess (some notReadyVideo) true true 30 1 = [] ∧
    applyCmds blankCanvas (captureAndProcess (some notReadyVideo) true true 30 1) =
      blankCanvas :=
  notReadyTickIsNoop notReadyVideo true true 30 1 blankCanvas (by decide)

/-! ## Claim C10: toggleCamera is an involution on the facing mode -/

/-- C10: each call of `toggleCamera` changes the facing mode to the other
value, and applying it twice returns the facing mode to its original
value. -/
theorem toggleCamera_involution (s : CameraState) :
    (toggleCamera (toggleCamera s)).facingMode = s.facingMode ∧
    (toggleCamera s).facingMode ≠ s.facingMode := by
  obtain ⟨m, k⟩ := s
  cases m <;> simp [toggleCamera]

end WebcamFilter
